import Mathlib

/-!
Verification of the Sora mail server's metadata-store operations
(db/append.go), the sequence-maintenance trigger
(db/migrations/000002_add_sequence_caching.up.sql), the ManageSieve
session lock discipline (the managesieve session handlers), the HTTP
pre-lookup result classification and cache (server/proxy), and the
ESEARCH empty-result encoding, as a shallow embedding in Lean.
-/

namespace Sora

/-- Bitwise bit for the IMAP Recent system flag (db.FlagRecent); it is OR-ed
onto the flags of rows created by CopyMessages. The concrete bit value is not
load-bearing for any theorem below. -/
def FlagRecent : Nat := 32

/-- One row of the messages table, restricted to the columns the verified
operations read or write. expunged models expunged_at IS NOT NULL. -/
structure MessageRow where
  id : Nat
  accountId : Nat
  mailboxId : Nat
  mailboxPath : String
  uid : Nat
  messageId : String
  contentHash : String
  flags : Nat
  size : Nat
  uploaded : Bool
  expunged : Bool
  createdModseq : Nat
deriving Repr, DecidableEq

/-- One row of the mailboxes table (columns used by the verified operations). -/
structure Mailbox where
  id : Nat
  name : String
  highestUid : Nat
  uidValidity : Nat
deriving Repr, DecidableEq

/-- The database state visible to the verified metadata-store operations.
pendingUploads holds the (content_hash, account_id) keys of pending_uploads
rows (the table's ON CONFLICT key); contents holds the content_hash keys of
message_contents rows; messageSequences holds (mailbox_id, uid, seqnum) rows
of the message_sequences table; nextRowId models the messages.id sequence and
modseq the messages_modseq sequence (nextval returns modseq + 1). -/
structure DBState where
  mailboxes : List Mailbox
  messages : List MessageRow
  pendingUploads : List (String × Nat)
  contents : List String
  messageSequences : List (Nat × Nat × Nat)
  nextRowId : Nat
  modseq : Nat
deriving Repr, DecidableEq

/-- SELECT ... FROM mailboxes WHERE id = mid (ids are unique; first match). -/
def findMailbox (s : DBState) (mid : Nat) : Option Mailbox :=
  s.mailboxes.find? (fun mb => mb.id == mid)

/-- UPDATE mailboxes SET ... WHERE id = mid, as a pointwise map. -/
def updMailboxes (mid : Nat) (f : Mailbox → Mailbox) (l : List Mailbox) : List Mailbox :=
  l.map (fun mb => if mb.id == mid then f mb else mb)

/-- A message row is live in mailbox mid: mailbox_id = mid AND expunged_at IS NULL. -/
def isLiveIn (mid : Nat) (m : MessageRow) : Bool :=
  m.mailboxId == mid && !m.expunged

/-- Insertion step of sorting message rows by uid ascending (ORDER BY uid). -/
def insertByUid (m : MessageRow) : List MessageRow → List MessageRow
  | [] => [m]
  | x :: xs => if m.uid ≤ x.uid then m :: x :: xs else x :: insertByUid m xs

/-- Sort message rows by uid ascending, modelling the SQL ORDER BY uid. -/
def sortByUid : List MessageRow → List MessageRow
  | [] => []
  | x :: xs => insertByUid x (sortByUid xs)

/-- The rows of
SELECT id, uid FROM messages
WHERE mailbox_id = mid AND uid = ANY(uids) AND expunged_at IS NULL ORDER BY uid. -/
def liveMatching (s : DBState) (mid : Nat) (uids : List Nat) : List MessageRow :=
  sortByUid (s.messages.filter (fun m => m.mailboxId == mid && uids.contains m.uid && !m.expunged))

/-- The Go loop assigning consecutive new UIDs (newUID := startUID + i) to the
matched source rows in order; yields the (sourceUID, newUID) pairs of the
returned messageUIDMap. -/
def assignUids (startUid : Nat) : List MessageRow → List (Nat × Nat)
  | [] => []
  | m :: ms => (m.uid, startUid) :: assignUids (startUid + 1) ms

/-- The INSERT ... SELECT of CopyMessages: one new row per matched source row,
in order, with the destination mailbox id and name, the assigned new uid, the
source flags OR FlagRecent, a fresh id and a fresh created_modseq
(nextval per row); expunged_at is not copied, so the new rows are live. -/
def copyRows (destId : Nat) (destName : String) (startUid rowId modseq : Nat) :
    List MessageRow → List MessageRow
  | [] => []
  | m :: ms =>
    { m with
        id := rowId
        mailboxId := destId
        mailboxPath := destName
        uid := startUid
        flags := m.flags ||| FlagRecent
        createdModseq := modseq
        expunged := false } ::
      copyRows destId destName (startUid + 1) (rowId + 1) (modseq + 1) ms

/-- Error values of db/append.go (consts errors and the fmt.Errorf cases). -/
inductive DBErr where
  | sameMailbox
  | internalError
  | dbUpdateFailed
  | uniqueViolation
  | dbInsertFailed
deriving Repr, DecidableEq

/-- Database.CopyMessages (db/append.go): copies the live source messages in
the requested UID set from srcMailboxID to destMailboxID inside one
transaction, advancing the destination highest_uid by the number of matched
rows and returning the old-UID-to-new-UID map in ascending source-UID order.
An error models a rolled-back transaction (no state change). -/
def copyMessages (s : DBState) (uids : List Nat) (srcMailboxID destMailboxID : Nat) :
    Except DBErr (List (Nat × Nat) × DBState) :=
  if srcMailboxID = destMailboxID then
    .error .sameMailbox
  else
    let srcRows := liveMatching s srcMailboxID uids
    if srcRows.isEmpty then
      .ok ([], s)
    else
      match findMailbox s destMailboxID with
      | none => .error .dbUpdateFailed
      | some dest =>
        let n := srcRows.length
        let newHighestUID := dest.highestUid + n
        let startUid := newHighestUID - n + 1
        let uidMap := assignUids startUid srcRows
        let newRows := copyRows destMailboxID dest.name startUid s.nextRowId (s.modseq + 1) srcRows
        .ok (uidMap,
          { s with
              mailboxes := updMailboxes destMailboxID
                (fun mb => { mb with highestUid := mb.highestUid + n }) s.mailboxes
              messages := s.messages ++ newRows
              nextRowId := s.nextRowId + n
              modseq := s.modseq + n })

/-- The fields of db.InsertMessageOptions that InsertMessage reads.
messageId holds the already-sanitized Message-ID (helpers.SanitizeUTF8 is an
external helper; the code applies it before any use), and generatedMessageId
the fallback id the code generates when the sanitized Message-ID is empty.
flags holds the bitfield FlagsToBitwise produces from the system flags. -/
structure InsertOptions where
  userId : Nat
  mailboxId : Nat
  mailboxName : String
  contentHash : String
  messageId : String
  generatedMessageId : String
  flags : Nat
  size : Nat
  preservedUid : Option Nat
  preservedUidValidity : Option Nat
deriving Repr, DecidableEq

/-- The fields of db.PendingUpload that InsertMessage writes into the
pending_uploads table (its ON CONFLICT key is (content_hash, account_id)). -/
structure PendingUpload where
  instanceId : String
  contentHash : String
  size : Nat
  accountId : Nat
deriving Repr, DecidableEq

/-- The Message-ID actually used by InsertMessage: the sanitized id, or the
generated fallback when the sanitized id is empty. -/
def effectiveMessageId (o : InsertOptions) : String :=
  if o.messageId = "" then o.generatedMessageId else o.messageId

/-- The UPDATE mailboxes statement of InsertMessage: with a preserved UID,
SET highest_uid = GREATEST(highest_uid, preserved) and, when a preserved
UIDVALIDITY is also given, SET uid_validity to it; without a preserved UID,
SET highest_uid = highest_uid + 1. -/
def bumpMailbox (o : InsertOptions) (mb : Mailbox) : Mailbox :=
  match o.preservedUid with
  | some p =>
    let mb1 := { mb with highestUid := max mb.highestUid p }
    match o.preservedUidValidity with
    | some v => { mb1 with uidValidity := v }
    | none => mb1
  | none => { mb with highestUid := mb.highestUid + 1 }

/-- A live row that collides with the INSERT on the per-mailbox Message-ID
uniqueness constraint messages_message_id_mailbox_id_key. Modelled from the
spec: the constraint itself lives in migration 000001, which is not under
src/; the spec states that message_id is unique per mailbox among live rows. -/
def messageIdConflict (s : DBState) (mailboxId : Nat) (msgId : String) : Bool :=
  s.messages.any (fun m => m.mailboxId == mailboxId && m.messageId == msgId && !m.expunged)

/-- The recovery lookup InsertMessage runs after a unique-violation error:
SELECT id, uid FROM messages
WHERE account_id = a AND mailbox_id = b AND message_id = c AND expunged_at IS NULL. -/
def findExistingMessage (s : DBState) (accountId mailboxId : Nat) (msgId : String) :
    Option MessageRow :=
  s.messages.find? (fun m =>
    m.accountId == accountId && m.mailboxId == mailboxId && m.messageId == msgId && !m.expunged)

/-- Database.InsertMessage (db/append.go): bumps the mailbox highest_uid
(or raises it to the preserved UID), inserts one messages row (uploaded is not
in the INSERT column list, so it takes its DB default false), upserts the
message_contents row, and upserts the pending_uploads row keyed by
(content_hash, account_id). On the Message-ID unique violation with a live
matching row for the same account, it returns the existing row's id and uid
with no error while the surrounding transaction is rolled back (the attempted
INSERT and UID bump are undone), so the resulting state is the input state.
The returned uid is the highestUID value computed by the UPDATE, as in the
source. -/
def insertMessage (s : DBState) (o : InsertOptions) (up : PendingUpload) :
    Except DBErr (Nat × Nat × DBState) :=
  let saneMessageId := effectiveMessageId o
  match findMailbox s o.mailboxId with
  | none => .error .dbUpdateFailed
  | some mbx =>
    let uidToUse := match o.preservedUid with
      | some p => p
      | none => mbx.highestUid + 1
    let highestUid := (bumpMailbox o mbx).highestUid
    let s1 : DBState :=
      { s with mailboxes := updMailboxes o.mailboxId (bumpMailbox o) s.mailboxes }
    if messageIdConflict s o.mailboxId saneMessageId then
      match findExistingMessage s o.userId o.mailboxId saneMessageId with
      | some ex => .ok (ex.id, ex.uid, s)
      | none => .error .uniqueViolation
    else
      let row : MessageRow :=
        { id := s.nextRowId
          accountId := o.userId
          mailboxId := o.mailboxId
          mailboxPath := o.mailboxName
          uid := uidToUse
          messageId := saneMessageId
          contentHash := o.contentHash
          flags := o.flags
          size := o.size
          uploaded := false
          expunged := false
          createdModseq := s.modseq + 1 }
      let contents1 := if s.contents.contains o.contentHash then s.contents
        else s.contents ++ [o.contentHash]
      let pend1 := if s.pendingUploads.contains (up.contentHash, up.accountId)
        then s.pendingUploads
        else s.pendingUploads ++ [(up.contentHash, up.accountId)]
      .ok (row.id, highestUid,
        { s1 with
            messages := s1.messages ++ [row]
            contents := contents1
            pendingUploads := pend1
            nextRowId := s.nextRowId + 1
            modseq := s.modseq + 1 })

/-- Modelled from the spec: the uploader's finalize step (spec section 4.3,
"sets messages.uploaded=true and deletes the pending row"); the uploader
worker itself is not under src/. It promotes the rows of one
(content_hash, account_id) pending upload and removes the pending row. -/
def completeUpload (s : DBState) (hash : String) (acct : Nat) : DBState :=
  { s with
      messages := s.messages.map (fun m =>
        if m.contentHash == hash && m.accountId == acct then { m with uploaded := true } else m)
      pendingUploads := s.pendingUploads.filter (fun p => !(p == (hash, acct))) }

/-- The pending-upload invariant of the spec: every messages row with
uploaded=false has a pending_uploads row for its (content_hash, account_id). -/
def pendingInvariant (s : DBState) : Prop :=
  ∀ m ∈ s.messages, m.uploaded = false → (m.contentHash, m.accountId) ∈ s.pendingUploads

/-- The rebuild the maintain_message_sequences trigger function runs for one
affected mailbox: DELETE its message_sequences rows, then INSERT
SELECT mailbox_id, uid, ROW_NUMBER() OVER (ORDER BY uid)
FROM messages WHERE mailbox_id = mid AND expunged_at IS NULL. -/
def rebuildSequences (msgs : List MessageRow) (mid : Nat) : List (Nat × Nat) :=
  assignUids 1 (sortByUid (msgs.filter (isLiveIn mid)))

/-- One iteration of the trigger's affected-mailbox loop applied to the
message_sequences table: delete the mailbox's rows and insert the rebuilt
(mailbox_id, uid, seqnum) rows. -/
def processMailboxSequences (seqs : List (Nat × Nat × Nat)) (msgs : List MessageRow)
    (mid : Nat) : List (Nat × Nat × Nat) :=
  seqs.filter (fun r => !(r.1 == mid)) ++ (rebuildSequences msgs mid).map (fun p => (mid, p.1, p.2))

/-- The whole trigger run: the rebuild loop over every affected mailbox. -/
def maintainMessageSequences (seqs : List (Nat × Nat × Nat)) (msgs : List MessageRow)
    (affected : List Nat) : List (Nat × Nat × Nat) :=
  affected.foldl (fun acc mid => processMailboxSequences acc msgs mid) seqs

/-- The response a ManageSieve command sends when a bounded-timeout lock
acquisition fails. -/
def serverBusyResp : String := "NO Server busy, try again later\r\n"

/-- Outcome of the GetScriptByNameWithRetry lookup inside PUTSCRIPT. -/
inductive GetScriptOutcome where
  | found
  | notFound
  | dbError
deriving Repr, DecidableEq

/-- The externally determined outcomes met along handlePutScript
(message_list.go): context state, trimmed-name emptiness, the two bounded
lock acquisitions, size check, sieve validation, and the DB calls. -/
structure PutScriptEnv where
  ctxCancelled : Bool
  nameEmpty : Bool
  phase1ReadLock : Bool
  sizeExceeded : Bool
  validationFails : Bool
  existing : GetScriptOutcome
  writeFails : Bool
  phase3WriteLock : Bool
deriving Repr, DecidableEq

/-- Result of a ManageSieve command handler: the response written, the
boolean the handler returns, and whether the session got pinned to the master
DB (s.useMasterDB set under the phase-3 write lock). -/
structure CmdResult where
  resp : String
  ok : Bool
  pinned : Bool
deriving Repr, DecidableEq

/-- ManageSieveSession.handlePutScript (message_list.go): the control-flow
skeleton over the externally determined outcomes. Phase 1 takes the session
read lock with a bounded timeout and fails the command with serverBusyResp on
timeout; phase 3 takes the write lock with a bounded timeout but, on timeout,
only logs a warning and continues, so the command still completes and returns
its OK response, merely leaving the session unpinned. -/
def handlePutScript (e : PutScriptEnv) : CmdResult :=
  if e.ctxCancelled then ⟨"NO Session closed\r\n", false, false⟩
  else if e.nameEmpty then ⟨"NO Script name cannot be empty\r\n", false, false⟩
  else if !e.phase1ReadLock then ⟨serverBusyResp, false, false⟩
  else if e.sizeExceeded then
    ⟨"NO (MAXSCRIPTSIZE) Script size exceeds maximum allowed size\r\n", false, false⟩
  else if e.validationFails then ⟨"NO Script validation failed\r\n", false, false⟩
  else
    match e.existing with
    | .dbError => ⟨"NO Internal server error\r\n", false, false⟩
    | .found =>
      if e.writeFails then ⟨"NO Internal server error\r\n", false, false⟩
      else ⟨"OK Script updated\r\n", true, e.phase3WriteLock⟩
    | .notFound =>
      if e.writeFails then ⟨"NO Internal server error\r\n", false, false⟩
      else ⟨"OK Script stored\r\n", true, e.phase3WriteLock⟩

/-- The early-return paths of ManageSieveSession.handleAuthenticate before the
session-state write lock; each constructor is one return in the source, in
order. authOk reaches the lock acquisition. -/
inductive AuthPhase where
  | malformedCommand
  | unsupportedMechanism
  | readError
  | cancelledByClient
  | decodeError
  | formatError
  | masterNoAuthz
  | masterBadTarget
  | masterTargetNotFound
  | proxyNotSupported
  | invalidAddress
  | rateLimited
  | authFailed
  | authOk
deriving Repr, DecidableEq

/-- ManageSieveSession.handleAuthenticate (message_list.go): the control-flow
skeleton. After the authentication logic succeeds, the handler checks the
context then acquires the session write lock with a bounded timeout; on
timeout it fails the command with serverBusyResp. Returns (response, success);
the cancelled path returns without writing a response (modelled as ""). -/
def handleAuthenticate (pre : AuthPhase) (ctxCancelled lockAcquired : Bool) :
    String × Bool :=
  match pre with
  | .malformedCommand => ("NO Syntax: AUTHENTICATE mechanism\r\n", false)
  | .unsupportedMechanism => ("NO Unsupported authentication mechanism\r\n", false)
  | .readError => ("NO Authentication failed\r\n", false)
  | .cancelledByClient => ("NO Authentication cancelled\r\n", false)
  | .decodeError => ("NO Invalid authentication data\r\n", false)
  | .formatError => ("NO Invalid authentication format\r\n", false)
  | .masterNoAuthz => ("NO Master SASL login requires an authorization identity.\r\n", false)
  | .masterBadTarget => ("NO Invalid impersonation target user format\r\n", false)
  | .masterTargetNotFound => ("NO Impersonation target user not found\r\n", false)
  | .proxyNotSupported => ("NO Proxy authentication not supported\r\n", false)
  | .invalidAddress => ("NO Invalid username format\r\n", false)
  | .rateLimited => ("NO Too many authentication attempts. Please try again later.\r\n", false)
  | .authFailed => ("NO Authentication failed\r\n", false)
  | .authOk =>
    if ctxCancelled then ("", false)
    else if !lockAcquired then (serverBusyResp, false)
    else ("OK Authenticated\r\n", true)

/-- The proxy pre-lookup result kinds (proxy.AuthResult): success,
user-not-found, failed. -/
inductive AuthResult where
  | success
  | userNotFound
  | failed
deriving Repr, DecidableEq

/-- The JSON body of a pre-lookup response: address, password_hash and the
backend server field. -/
structure PrelookupResponse where
  address : String
  passwordHash : String
  server : String
deriving Repr, DecidableEq

/-- The externally observable outcome of one HTTP pre-lookup call: a network
failure, a short-circuit by the open circuit breaker, or an HTTP response
with a status code and (when parseable) a decoded JSON body. -/
inductive LookupOutcome where
  | networkError
  | circuitOpen
  | httpResponse (status : Nat) (body : Option PrelookupResponse)
deriving Repr, DecidableEq

/-- The distinct error kinds of the pre-lookup client
(ErrPrelookupTransient, ErrPrelookupInvalidResponse). -/
inductive PrelookupErrKind where
  | transient
  | invalidResponse
deriving Repr, DecidableEq

/-- Modelled from the spec: the HTTP pre-lookup client's classification of a
lookup outcome into (routing info, AuthResult, error kind). The client itself
(LookupUserRoute) is not under src/; this follows spec section 4.5 and the
case table of TestHTTPPrelookupErrorTypes: 4xx yields userNotFound with no
error and no routing info; 5xx, network failure and open breaker yield failed
wrapped in the transient kind; a 2xx with malformed JSON or an empty address
or password_hash yields the invalid-response kind; a 2xx missing the server
field is treated as user-not-found. -/
def classifyPrelookup : LookupOutcome →
    Option PrelookupResponse × AuthResult × Option PrelookupErrKind
  | .networkError => (none, .failed, some .transient)
  | .circuitOpen => (none, .failed, some .transient)
  | .httpResponse status body =>
    if 500 ≤ status then (none, .failed, some .transient)
    else if 400 ≤ status then (none, .userNotFound, none)
    else
      match body with
      | none => (none, .failed, some .invalidResponse)
      | some r =>
        if r.address = "" || r.passwordHash = "" then (none, .failed, some .invalidResponse)
        else if r.server = "" then (none, .userNotFound, none)
        else (some r, .success, none)

/-- One cached pre-lookup result (proxy.cacheEntry). -/
structure CacheEntry where
  info : Option PrelookupResponse
  authResult : AuthResult
  expiresAt : Nat
  isNegative : Bool
deriving Repr, DecidableEq

/-- The pre-lookup cache (proxy.prelookupCache): its entries map (modelled as
a key-unique association list) and configuration. Time is modelled as Nat and
passed to Get/Set explicitly where the code calls time.Now(). -/
structure PrelookupCache where
  entries : List (String × CacheEntry)
  positiveTTL : Nat
  negativeTTL : Nat
  maxSize : Nat
deriving Repr, DecidableEq

/-- The map read c.entries[key]. -/
def cacheLookup (c : PrelookupCache) (key : String) : Option CacheEntry :=
  (c.entries.find? (fun e => e.1 == key)).map Prod.snd

/-- prelookupCache.Get: a present entry whose expiresAt has passed
(time.Now().After(entry.expiresAt)) is a miss; otherwise the entry's info and
result are returned. -/
def cacheGet (c : PrelookupCache) (now : Nat) (key : String) :
    Option (Option PrelookupResponse × AuthResult) :=
  match cacheLookup c key with
  | none => none
  | some e => if now > e.expiresAt then none else some (e.info, e.authResult)

/-- prelookupCache.evictOldest's scan: the first entry (in iteration order)
whose expiresAt is strictly smaller than every earlier candidate, i.e. a
minimal-expiry entry. -/
def findOldest (l : List (String × CacheEntry)) : Option (String × CacheEntry) :=
  l.foldl (fun acc e =>
    match acc with
    | none => some e
    | some b => if e.2.expiresAt < b.2.expiresAt then some e else some b) none

/-- prelookupCache.evictOldest: delete the minimal-expiry entry. -/
def evictOldest (c : PrelookupCache) : PrelookupCache :=
  match findOldest c.entries with
  | none => c
  | some ke => { c with entries := c.entries.filter (fun e => !(e.1 == ke.1)) }

/-- The negative-result test of prelookupCache.Set. -/
def isNegativeResult (r : AuthResult) : Bool :=
  r == AuthResult.userNotFound || r == AuthResult.failed

/-- prelookupCache.Set: when the map already holds maxSize entries, first
evict the minimal-expiry entry; then store the entry under key with
expiresAt = now + (negativeTTL if the result is negative else positiveTTL). -/
def cacheSet (c : PrelookupCache) (now : Nat) (key : String)
    (info : Option PrelookupResponse) (res : AuthResult) : PrelookupCache :=
  let c1 := if c.maxSize ≤ c.entries.length then evictOldest c else c
  let neg := isNegativeResult res
  let ttl := if neg then c.negativeTTL else c.positiveTTL
  { c1 with entries :=
      (c1.entries.filter (fun e => !(e.1 == key))) ++
        [(key, ⟨info, res, now + ttl, neg⟩)] }

/-- A number list rendered as an IMAP set (comma-separated; ranges are not
needed for the verified property). -/
def formatNatSet (l : List Nat) : String :=
  String.intercalate "," (l.map toString)

/-- Modelled from the spec: the untagged ESEARCH response encoder as the token
list the server emits (the encoder lives in the forked go-imap library, not
under src/). Spec sections 4.1 and 8: an empty result set emits the ESEARCH
response WITHOUT the ALL keyword and with no trailing set, as in the expected
output of TestIMAP_ESearchEmptyResult. -/
def esearchTokens (tag : String) (uid : Bool) (results : List Nat) : List String :=
  ["*", "ESEARCH", "(TAG \"" ++ tag ++ "\")"] ++
    (if uid then ["UID"] else []) ++
    (if results.isEmpty then [] else ["ALL", formatNatSet results])

/-- The unsorted list of live source rows in the requested UID set; the rows
CopyMessages matches, before the ORDER BY. -/
def matchedRows (s : DBState) (src : Nat) (uids : List Nat) : List MessageRow :=
  s.messages.filter (fun m => m.mailboxId == src && uids.contains m.uid && !m.expunged)

/-- The destination mailbox's highest_uid as stored in the state. -/
def mailboxHighest (s : DBState) (mid : Nat) : Option Nat :=
  (findMailbox s mid).map (·.highestUid)

theorem insertByUid_perm (m : MessageRow) (l : List MessageRow) :
    (insertByUid m l).Perm (m :: l) := by
  induction l with
  | nil => simp [insertByUid]
  | cons x xs ih =>
    simp only [insertByUid]
    split
    · exact List.Perm.refl _
    · exact (ih.cons x).trans (List.Perm.swap m x xs)

theorem sortByUid_perm (l : List MessageRow) : (sortByUid l).Perm l := by
  induction l with
  | nil => simp [sortByUid]
  | cons x xs ih =>
    exact (insertByUid_perm x (sortByUid xs)).trans (ih.cons x)

theorem insertByUid_pairwise (m : MessageRow) (l : List MessageRow)
    (h : l.Pairwise (fun a b => a.uid ≤ b.uid)) :
    (insertByUid m l).Pairwise (fun a b => a.uid ≤ b.uid) := by
  induction l with
  | nil => simp [insertByUid]
  | cons x xs ih =>
    rcases List.pairwise_cons.mp h with ⟨hx, hxs⟩
    simp only [insertByUid]
    split
    case isTrue hle =>
      refine List.pairwise_cons.mpr ⟨?_, h⟩
      intro b hb
      rcases List.mem_cons.mp hb with rfl | hb
      · exact hle
      · exact le_trans hle (hx b hb)
    case isFalse hgt =>
      refine List.pairwise_cons.mpr ⟨?_, ih hxs⟩
      intro b hb
      have hb' : b ∈ m :: xs := (insertByUid_perm m xs).mem_iff.mp hb
      rcases List.mem_cons.mp hb' with rfl | hb'
      · exact le_of_not_le hgt
      · exact hx b hb'

theorem sortByUid_pairwise (l : List MessageRow) :
    (sortByUid l).Pairwise (fun a b => a.uid ≤ b.uid) := by
  induction l with
  | nil => simp [sortByUid]
  | cons x xs ih => exact insertByUid_pairwise x (sortByUid xs) ih

theorem assignUids_length (k : Nat) (l : List MessageRow) :
    (assignUids k l).length = l.length := by
  induction l generalizing k with
  | nil => rfl
  | cons x xs ih => simp [assignUids, ih]

theorem assignUids_fst (k : Nat) (l : List MessageRow) :
    (assignUids k l).map Prod.fst = l.map (·.uid) := by
  induction l generalizing k with
  | nil => rfl
  | cons x xs ih => simp [assignUids, ih]

theorem assignUids_snd (k : Nat) (l : List MessageRow) :
    (assignUids k l).map Prod.snd = List.range' k l.length := by
  induction l generalizing k with
  | nil => rfl
  | cons x xs ih => simp [assignUids, ih, List.range'_succ]

/-- Every row CopyMessages inserts inherits uploaded, content_hash and
account_id from a matched source row, and is live. -/
theorem copyRows_source (d : Nat) (nm : String) (su ri ms : Nat) (l : List MessageRow) :
    ∀ r ∈ copyRows d nm su ri ms l, ∃ m ∈ l,
      r.uploaded = m.uploaded ∧ r.contentHash = m.contentHash ∧
      r.accountId = m.accountId ∧ r.expunged = false := by
  induction l generalizing su ri ms with
  | nil => intro r hr; simp [copyRows] at hr
  | cons x xs ih =>
    intro r hr
    simp only [copyRows, List.mem_cons] at hr
    rcases hr with rfl | hr
    · exact ⟨x, List.mem_cons_self x xs, rfl, rfl, rfl, rfl⟩
    · rcases ih (su + 1) (ri + 1) (ms + 1) r hr with ⟨m, hm, h1, h2, h3, h4⟩
      exact ⟨m, List.mem_cons_of_mem x hm, h1, h2, h3, h4⟩

/-- find? after updMailboxes: when the update preserves ids, the found row is
the updated image of the originally found row. -/
theorem find?_updMailboxes (l : List Mailbox) (mid : Nat) (f : Mailbox → Mailbox)
    (hf : ∀ mb, (f mb).id = mb.id) (tgt : Nat) :
    (updMailboxes mid f l).find? (fun mb => mb.id == tgt) =
      ((l.find? (fun mb => mb.id == tgt)).map (fun mb => if mb.id == mid then f mb else mb)) := by
  induction l with
  | nil => rfl
  | cons x xs ih =>
    have hhead : (if x.id == mid then f x else x).id = x.id := by
      split
      · exact hf x
      · rfl
    show List.find? (fun mb => mb.id == tgt)
        ((if x.id == mid then f x else x) :: updMailboxes mid f xs) = _
    by_cases hx : x.id = tgt
    · have h1 : ((if x.id == mid then f x else x).id == tgt) = true := by
        rw [hhead]; simpa using hx
      have h2 : (x.id == tgt) = true := by simpa using hx
      rw [List.find?_cons_of_pos (p := fun mb : Mailbox => mb.id == tgt) _ h1,
        List.find?_cons_of_pos (p := fun mb : Mailbox => mb.id == tgt) _ h2]
      rfl
    · have h1 : ¬ ((if x.id == mid then f x else x).id == tgt) = true := by
        rw [hhead]; simpa using hx
      have h2 : ¬ (x.id == tgt) = true := by simpa using hx
      rw [List.find?_cons_of_neg (p := fun mb : Mailbox => mb.id == tgt) _ (by simpa using h1),
        List.find?_cons_of_neg (p := fun mb : Mailbox => mb.id == tgt) _ (by simpa using h2)]
      exact ih

/-- A sorted Nat list without duplicates is strictly sorted. -/
theorem pairwise_lt_of_le_nodup (l : List Nat)
    (hle : l.Pairwise (· ≤ ·)) (hnd : l.Nodup) : l.Pairwise (· < ·) :=
  (hle.and hnd).imp (fun h => lt_of_le_of_ne h.1 h.2)

/-- Characterization of the CopyMessages early return: no matched rows. -/
theorem copyMessages_empty_eq (s : DBState) (uids : List Nat) (src dst : Nat)
    (hne : src ≠ dst) (hM : matchedRows s src uids = []) :
    copyMessages s uids src dst = .ok ([], s) := by
  have h1 : liveMatching s src uids = [] := by
    show sortByUid (matchedRows s src uids) = []
    rw [hM]; rfl
  unfold copyMessages
  rw [if_neg hne]
  simp [h1]

/-- Characterization of the CopyMessages main path: distinct mailboxes, some
matched rows, destination mailbox present. -/
theorem copyMessages_nonempty_eq (s : DBState) (uids : List Nat) (src dst : Nat)
    (dest : Mailbox)
    (hne : src ≠ dst) (hdest : findMailbox s dst = some dest)
    (hnonempty : matchedRows s src uids ≠ []) :
    copyMessages s uids src dst =
      .ok (assignUids (dest.highestUid + 1) (sortByUid (matchedRows s src uids)),
        { s with
            mailboxes := updMailboxes dst
              (fun mb =>
                { mb with highestUid :=
                    mb.highestUid + (sortByUid (matchedRows s src uids)).length })
              s.mailboxes
            messages := s.messages ++
              copyRows dst dest.name (dest.highestUid + 1)
                s.nextRowId (s.modseq + 1) (sortByUid (matchedRows s src uids))
            nextRowId := s.nextRowId + (sortByUid (matchedRows s src uids)).length
            modseq := s.modseq + (sortByUid (matchedRows s src uids)).length }) := by
  set M := matchedRows s src uids with hMdef
  have hperm : (sortByUid M).Perm M := sortByUid_perm M
  have hlive : liveMatching s src uids = sortByUid M := rfl
  have hnil : sortByUid M ≠ [] := by
    intro h
    exact hnonempty (List.nil_perm.mp (h ▸ hperm))
  have hempty : (sortByUid M).isEmpty = false := by
    cases h : sortByUid M with
    | nil => exact absurd h hnil
    | cons a l => rfl
  have heq : copyMessages s uids src dst =
      .ok (assignUids (dest.highestUid + (sortByUid M).length - (sortByUid M).length + 1)
            (sortByUid M),
        { s with
            mailboxes := updMailboxes dst
              (fun mb => { mb with highestUid := mb.highestUid + (sortByUid M).length })
              s.mailboxes
            messages := s.messages ++
              copyRows dst dest.name
                (dest.highestUid + (sortByUid M).length - (sortByUid M).length + 1)
                s.nextRowId (s.modseq + 1) (sortByUid M)
            nextRowId := s.nextRowId + (sortByUid M).length
            modseq := s.modseq + (sortByUid M).length }) := by
    unfold copyMessages
    rw [if_neg hne]
    simp only [hlive, hempty, Bool.false_eq_true, if_false, hdest]
  have hstart : dest.highestUid + (sortByUid M).length - (sortByUid M).length + 1
      = dest.highestUid + 1 := by omega
  rw [hstart] at heq
  exact heq

/-- C10: a CopyMessages call whose UID set matches no live source message
returns the empty UID map with no error and leaves the whole state unchanged
(the early return precedes the highest_uid reservation). -/
theorem copyMessages_noMatch_frame
    (s : DBState) (uids : List Nat) (src dst : Nat)
    (hne : src ≠ dst)
    (hnolive : ∀ m ∈ s.messages, m.mailboxId = src → m.expunged = false → m.uid ∉ uids) :
    copyMessages s uids src dst = .ok ([], s) := by
  have hM : matchedRows s src uids = [] := by
    rw [matchedRows, List.filter_eq_nil_iff]
    intro m hm
    intro hcontra
    simp only [List.contains, Bool.and_eq_true, beq_iff_eq, Bool.not_eq_true',
      List.elem_eq_mem, decide_eq_true_eq] at hcontra
    exact hnolive m hm hcontra.1.1 hcontra.2 hcontra.1.2
  exact copyMessages_empty_eq s uids src dst hne hM

/-- C1: CopyMessages from a source to a distinct destination mailbox, with N
live source messages matched by the UID set, advances the destination
highest_uid by exactly N and returns a UID map pairing the N matched source
UIDs in ascending order with N consecutive new UIDs ending at the new
highest_uid; the source and destination sides are equal-length and
order-preserving. The no-duplicate hypothesis is the messages-table uid
uniqueness within a mailbox. -/
theorem copyMessages_copyuid
    (s : DBState) (uids : List Nat) (src dst : Nat) (dest : Mailbox)
    (hne : src ≠ dst)
    (hdest : findMailbox s dst = some dest)
    (hnonempty : matchedRows s src uids ≠ [])
    (hnodup : ((matchedRows s src uids).map (·.uid)).Nodup) :
    ∃ uidMap s2,
      copyMessages s uids src dst = .ok (uidMap, s2) ∧
      mailboxHighest s2 dst = some (dest.highestUid + (matchedRows s src uids).length) ∧
      uidMap.length = (matchedRows s src uids).length ∧
      (uidMap.map Prod.fst).Perm ((matchedRows s src uids).map (·.uid)) ∧
      uidMap.map Prod.snd = List.range' (dest.highestUid + 1) (matchedRows s src uids).length ∧
      dest.highestUid + (matchedRows s src uids).length ∈ uidMap.map Prod.snd ∧
      uidMap.Pairwise (fun a b => a.1 < b.1 ∧ a.2 < b.2) := by
  classical
  set M := matchedRows s src uids with hMdef
  have hperm : (sortByUid M).Perm M := sortByUid_perm M
  have hlen : (sortByUid M).length = M.length := hperm.length_eq
  have hpos : 0 < M.length := List.length_pos.mpr hnonempty
  have heq := copyMessages_nonempty_eq s uids src dst dest hne hdest hnonempty
  have hdestid : dest.id = dst := by
    have := List.find?_some hdest
    simpa using this
  refine ⟨_, _, heq, ?_, ?_, ?_, ?_, ?_, ?_⟩
  · -- highest_uid advanced by exactly N
    show (List.find? (fun mb => mb.id == dst)
        (updMailboxes dst (fun mb => { mb with highestUid := mb.highestUid + (sortByUid M).length })
          s.mailboxes)).map (·.highestUid) = some (dest.highestUid + M.length)
    rw [find?_updMailboxes s.mailboxes dst
      (fun mb => { mb with highestUid := mb.highestUid + (sortByUid M).length })
      (fun mb => rfl) dst]
    have hfd : List.find? (fun mb => mb.id == dst) s.mailboxes = some dest := hdest
    rw [hfd]
    simp [hdestid, hlen]
  · -- equal length
    rw [assignUids_length, hlen]
  · -- source side is a permutation of the matched uids
    rw [assignUids_fst]
    exact hperm.map _
  · -- destination side: consecutive new UIDs starting right after the old highest
    rw [assignUids_snd, hlen]
  · -- the last new UID is the new highest_uid
    rw [assignUids_snd, hlen]
    have : dest.highestUid + M.length ∈ List.range' (dest.highestUid + 1) M.length := by
      rw [List.mem_range'_1]
      omega
    exact this
  · -- order-preserving on both sides
    have hfstle : ((assignUids (dest.highestUid + 1) (sortByUid M)).map Prod.fst).Pairwise (· ≤ ·) := by
      rw [assignUids_fst]
      exact (List.pairwise_map).mpr (sortByUid_pairwise M)
    have hfstnd : ((assignUids (dest.highestUid + 1) (sortByUid M)).map Prod.fst).Nodup := by
      rw [assignUids_fst]
      exact ((hperm.map (·.uid)).nodup_iff).mpr hnodup
    have hfst : ((assignUids (dest.highestUid + 1) (sortByUid M)).map Prod.fst).Pairwise (· < ·) :=
      pairwise_lt_of_le_nodup _ hfstle hfstnd
    have hsnd : ((assignUids (dest.highestUid + 1) (sortByUid M)).map Prod.snd).Pairwise (· < ·) := by
      rw [assignUids_snd]
      exact List.pairwise_lt_range' _ _
    have hfst' : (assignUids (dest.highestUid + 1) (sortByUid M)).Pairwise
        (fun a b => a.1 < b.1) := (List.pairwise_map).mp hfst
    have hsnd' : (assignUids (dest.highestUid + 1) (sortByUid M)).Pairwise
        (fun a b => a.2 < b.2) := (List.pairwise_map).mp hsnd
    exact hfst'.and hsnd'

theorem bumpMailbox_id (o : InsertOptions) (mb : Mailbox) :
    (bumpMailbox o mb).id = mb.id := by
  unfold bumpMailbox
  cases o.preservedUid with
  | none => rfl
  | some p =>
    cases o.preservedUidValidity with
    | none => rfl
    | some v => rfl

theorem bumpMailbox_highest (o : InsertOptions) (mb : Mailbox) :
    (bumpMailbox o mb).highestUid =
      match o.preservedUid with
      | some p => max mb.highestUid p
      | none => mb.highestUid + 1 := by
  unfold bumpMailbox
  cases o.preservedUid with
  | none => rfl
  | some p =>
    cases o.preservedUidValidity with
    | none => rfl
    | some v => rfl

theorem bumpMailbox_highest_le (o : InsertOptions) (mb : Mailbox) :
    mb.highestUid ≤ (bumpMailbox o mb).highestUid := by
  rw [bumpMailbox_highest]
  cases o.preservedUid with
  | none => exact Nat.le_succ _
  | some p => exact le_max_left _ _

/-- Finding under an id-preserving, highest_uid-monotone update cannot lower
the stored highest_uid of any mailbox. -/
theorem mailboxHighest_updMailboxes (l : List Mailbox) (mid tgt : Nat)
    (f : Mailbox → Mailbox)
    (hf : ∀ mb, (f mb).id = mb.id)
    (hmono : ∀ mb, mb.highestUid ≤ (f mb).highestUid)
    (hu : Nat)
    (hfind : (l.find? (fun mb => mb.id == tgt)).map (·.highestUid) = some hu) :
    ∃ hu2, ((updMailboxes mid f l).find? (fun mb => mb.id == tgt)).map (·.highestUid)
        = some hu2 ∧ hu ≤ hu2 := by
  rw [find?_updMailboxes l mid f hf tgt]
  cases hfd : l.find? (fun mb => mb.id == tgt) with
  | none => rw [hfd] at hfind; simp at hfind
  | some mb =>
    rw [hfd] at hfind
    simp at hfind
    subst hfind
    refine ⟨_, rfl, ?_⟩
    dsimp only
    split
    · exact hmono mb
    · exact le_refl _

/-- Characterization of the InsertMessage duplicate-Message-ID path: the
constraint fires and the recovery lookup finds a live row; the existing id and
uid are returned with no error and the transaction's effects are rolled back. -/
theorem insertMessage_conflict_eq (s : DBState) (o : InsertOptions) (up : PendingUpload)
    (mbx : Mailbox) (ex : MessageRow)
    (hfm : findMailbox s o.mailboxId = some mbx)
    (hc : messageIdConflict s o.mailboxId (effectiveMessageId o) = true)
    (hfind : findExistingMessage s o.userId o.mailboxId (effectiveMessageId o) = some ex) :
    insertMessage s o up = .ok (ex.id, ex.uid, s) := by
  unfold insertMessage
  rw [hfm]
  simp only [hc, hfind, if_true]

/-- Characterization of the InsertMessage success path: no Message-ID
conflict; the mailbox is bumped, the new row is appended with uploaded=false
and the message_contents and pending_uploads rows are upserted. -/
theorem insertMessage_noConflict_eq (s : DBState) (o : InsertOptions) (up : PendingUpload)
    (mbx : Mailbox)
    (hfm : findMailbox s o.mailboxId = some mbx)
    (hnc : messageIdConflict s o.mailboxId (effectiveMessageId o) = false) :
    insertMessage s o up =
      .ok (s.nextRowId, (bumpMailbox o mbx).highestUid,
        { s with
            mailboxes := updMailboxes o.mailboxId (bumpMailbox o) s.mailboxes
            messages := s.messages ++
              [{ id := s.nextRowId
                 accountId := o.userId
                 mailboxId := o.mailboxId
                 mailboxPath := o.mailboxName
                 uid := match o.preservedUid with
                   | some p => p
                   | none => mbx.highestUid + 1
                 messageId := effectiveMessageId o
                 contentHash := o.contentHash
                 flags := o.flags
                 size := o.size
                 uploaded := false
                 expunged := false
                 createdModseq := s.modseq + 1 }]
            contents := if s.contents.contains o.contentHash then s.contents
              else s.contents ++ [o.contentHash]
            pendingUploads := if s.pendingUploads.contains (up.contentHash, up.accountId)
              then s.pendingUploads
              else s.pendingUploads ++ [(up.contentHash, up.accountId)]
            nextRowId := s.nextRowId + 1
            modseq := s.modseq + 1 }) := by
  unfold insertMessage
  rw [hfm]
  simp only [hnc, Bool.false_eq_true, if_false]

/-- find? returns the unique element satisfying the predicate. -/
theorem find?_eq_of_unique {α : Type} (p : α → Bool) (l : List α) (a : α)
    (ha : a ∈ l) (hpa : p a = true) (huniq : ∀ b ∈ l, p b = true → b = a) :
    l.find? p = some a := by
  induction l with
  | nil => cases ha
  | cons x xs ih =>
    by_cases hx : p x = true
    · have hxa : x = a := huniq x (List.mem_cons_self x xs) hx
      subst hxa
      exact List.find?_cons_of_pos _ hx
    · rw [List.find?_cons_of_neg _ (by simpa using hx)]
      rcases List.mem_cons.mp ha with rfl | ha'
      · exact absurd hpa hx
      · exact ih ha' (fun b hb hpb => huniq b (List.mem_cons_of_mem x hb) hpb)

theorem insertMessage_noMailbox_eq (s : DBState) (o : InsertOptions) (up : PendingUpload)
    (hfm : findMailbox s o.mailboxId = none) :
    insertMessage s o up = .error .dbUpdateFailed := by
  unfold insertMessage
  rw [hfm]

theorem insertMessage_conflictNoRow_eq (s : DBState) (o : InsertOptions) (up : PendingUpload)
    (mbx : Mailbox)
    (hfm : findMailbox s o.mailboxId = some mbx)
    (hc : messageIdConflict s o.mailboxId (effectiveMessageId o) = true)
    (hfe : findExistingMessage s o.userId o.mailboxId (effectiveMessageId o) = none) :
    insertMessage s o up = .error .uniqueViolation := by
  unfold insertMessage
  rw [hfm]
  simp only [hc, hfe, if_true]

theorem copyMessages_noDest_eq (s : DBState) (uids : List Nat) (src dst : Nat)
    (hne : src ≠ dst)
    (hnonempty : matchedRows s src uids ≠ [])
    (hdest : findMailbox s dst = none) :
    copyMessages s uids src dst = .error .dbUpdateFailed := by
  have hperm : (sortByUid (matchedRows s src uids)).Perm (matchedRows s src uids) :=
    sortByUid_perm _
  have hlive : liveMatching s src uids = sortByUid (matchedRows s src uids) := rfl
  have hempty : (sortByUid (matchedRows s src uids)).isEmpty = false := by
    cases h : sortByUid (matchedRows s src uids) with
    | nil => exact absurd (List.nil_perm.mp (h ▸ hperm)).symm (Ne.symm hnonempty)
    | cons a l => rfl
  unfold copyMessages
  rw [if_neg hne]
  simp only [hlive, hempty, Bool.false_eq_true, if_false, hdest]

/-- C2: an InsertMessage whose INSERT hits the per-mailbox Message-ID
uniqueness constraint while a live message with the same sanitized Message-ID
exists in that mailbox for that account returns the existing row's id and UID
with no error, and no new message row is created (the state is unchanged:
the attempted INSERT and UID bump are rolled back). The uniqueness hypothesis
is the constraint itself: at most one live row per (account, mailbox,
message_id). -/
theorem insertMessage_duplicate_dedupe
    (s : DBState) (o : InsertOptions) (up : PendingUpload) (mbx : Mailbox) (ex : MessageRow)
    (hmbx : findMailbox s o.mailboxId = some mbx)
    (hexmem : ex ∈ s.messages)
    (hacct : ex.accountId = o.userId)
    (hmb : ex.mailboxId = o.mailboxId)
    (hmid : ex.messageId = effectiveMessageId o)
    (hlive : ex.expunged = false)
    (huniq : ∀ m ∈ s.messages, m.accountId = o.userId → m.mailboxId = o.mailboxId →
      m.messageId = effectiveMessageId o → m.expunged = false → m = ex) :
    insertMessage s o up = .ok (ex.id, ex.uid, s) := by
  have hc : messageIdConflict s o.mailboxId (effectiveMessageId o) = true := by
    rw [messageIdConflict, List.any_eq_true]
    exact ⟨ex, hexmem, by simp [hmb, hmid, hlive]⟩
  have hfind : findExistingMessage s o.userId o.mailboxId (effectiveMessageId o) = some ex := by
    rw [findExistingMessage]
    apply find?_eq_of_unique _ _ _ hexmem
    · simp [hacct, hmb, hmid, hlive]
    · intro b hb hpb
      simp only [Bool.and_eq_true, beq_iff_eq, Bool.not_eq_true'] at hpb
      obtain ⟨⟨⟨h1, h2⟩, h3⟩, h4⟩ := hpb
      exact huniq b hb h1 h2 h3 h4
  exact insertMessage_conflict_eq s o up mbx ex hmbx hc hfind

/-- C3: highest_uid never decreases under the metadata-store write operations:
both InsertMessage and CopyMessages leave every mailbox's highest_uid greater
than or equal to its old value on every outcome; on the actual-insert path,
InsertMessage without a preserved UID sets the target mailbox's highest_uid to
old + 1 and with a preserved UID to max(old, preserved); CopyMessages adds the
number of messages copied to the destination's highest_uid. -/
theorem highestUid_never_decreases :
    (∀ s o up r, insertMessage s o up = .ok r →
      ∀ mid hu, mailboxHighest s mid = some hu →
        ∃ hu2, mailboxHighest r.2.2 mid = some hu2 ∧ hu ≤ hu2) ∧
    (∀ s uids src dst r, copyMessages s uids src dst = .ok r →
      ∀ mid hu, mailboxHighest s mid = some hu →
        ∃ hu2, mailboxHighest r.2 mid = some hu2 ∧ hu ≤ hu2) ∧
    (∀ s o up mbx r, insertMessage s o up = .ok r →
      findMailbox s o.mailboxId = some mbx →
      messageIdConflict s o.mailboxId (effectiveMessageId o) = false →
      ((o.preservedUid = none →
          mailboxHighest r.2.2 o.mailboxId = some (mbx.highestUid + 1)) ∧
       (∀ p, o.preservedUid = some p →
          mailboxHighest r.2.2 o.mailboxId = some (max mbx.highestUid p)))) ∧
    (∀ s uids src dst dest r, copyMessages s uids src dst = .ok r →
      src ≠ dst → findMailbox s dst = some dest → matchedRows s src uids ≠ [] →
      mailboxHighest r.2 dst = some (dest.highestUid + (matchedRows s src uids).length)) := by
  have hself : ∀ (l : List Mailbox) (tgt : Nat) (f : Mailbox → Mailbox),
      (∀ mb, (f mb).id = mb.id) → ∀ mb, l.find? (fun x => x.id == tgt) = some mb →
      ((updMailboxes tgt f l).find? (fun x => x.id == tgt)).map (·.highestUid)
        = some ((f mb).highestUid) := by
    intro l tgt f hf mb hfind
    rw [find?_updMailboxes l tgt f hf tgt, hfind]
    have hid : mb.id = tgt := by simpa using List.find?_some hfind
    simp [hid]
  refine ⟨?_, ?_, ?_, ?_⟩
  · -- InsertMessage never lowers any highest_uid
    intro s o up r hr mid hu hmid
    cases hfm : findMailbox s o.mailboxId with
    | none =>
      rw [insertMessage_noMailbox_eq s o up hfm] at hr
      exact absurd hr (by simp)
    | some mbx =>
      by_cases hc : messageIdConflict s o.mailboxId (effectiveMessageId o) = true
      · cases hfe : findExistingMessage s o.userId o.mailboxId (effectiveMessageId o) with
        | none =>
          rw [insertMessage_conflictNoRow_eq s o up mbx hfm hc hfe] at hr
          exact absurd hr (by simp)
        | some ex =>
          rw [insertMessage_conflict_eq s o up mbx ex hfm hc hfe] at hr
          injection hr with h
          subst h
          exact ⟨hu, hmid, le_refl hu⟩
      · have hnc : messageIdConflict s o.mailboxId (effectiveMessageId o) = false := by
          simpa using hc
        rw [insertMessage_noConflict_eq s o up mbx hfm hnc] at hr
        injection hr with h
        subst h
        exact mailboxHighest_updMailboxes s.mailboxes o.mailboxId mid (bumpMailbox o)
          (bumpMailbox_id o) (bumpMailbox_highest_le o) hu hmid
  · -- CopyMessages never lowers any highest_uid
    intro s uids src dst r hr mid hu hmid
    by_cases hne : src = dst
    · unfold copyMessages at hr
      rw [if_pos hne] at hr
      exact absurd hr (by simp)
    · by_cases hM : matchedRows s src uids = []
      · rw [copyMessages_empty_eq s uids src dst hne hM] at hr
        injection hr with h
        subst h
        exact ⟨hu, hmid, le_refl hu⟩
      · cases hdest : findMailbox s dst with
        | none =>
          rw [copyMessages_noDest_eq s uids src dst hne hM hdest] at hr
          exact absurd hr (by simp)
        | some dest =>
          rw [copyMessages_nonempty_eq s uids src dst dest hne hdest hM] at hr
          injection hr with h
          subst h
          exact mailboxHighest_updMailboxes s.mailboxes dst mid
            (fun mb =>
              { mb with highestUid :=
                  mb.highestUid + (sortByUid (matchedRows s src uids)).length })
            (fun mb => rfl) (fun mb => Nat.le_add_right _ _) hu hmid
  · -- InsertMessage actual-insert path: +1 without preserved UID, max with it
    intro s o up mbx r hr hfm hnc
    rw [insertMessage_noConflict_eq s o up mbx hfm hnc] at hr
    injection hr with h
    subst h
    have hm := hself s.mailboxes o.mailboxId (bumpMailbox o) (bumpMailbox_id o) mbx hfm
    constructor
    · intro hp
      have : (bumpMailbox o mbx).highestUid = mbx.highestUid + 1 := by
        rw [bumpMailbox_highest, hp]
      exact this ▸ hm
    · intro p hp
      have : (bumpMailbox o mbx).highestUid = max mbx.highestUid p := by
        rw [bumpMailbox_highest, hp]
      exact this ▸ hm
  · -- CopyMessages adds exactly the number of copied messages
    intro s uids src dst dest r hr hne hdest hM
    rw [copyMessages_nonempty_eq s uids src dst dest hne hdest hM] at hr
    injection hr with h
    subst h
    have hm := hself s.mailboxes dst
      (fun mb =>
        { mb with highestUid := mb.highestUid + (sortByUid (matchedRows s src uids)).length })
      (fun mb => rfl) dest hdest
    have hlen : (sortByUid (matchedRows s src uids)).length = (matchedRows s src uids).length :=
      (sortByUid_perm _).length_eq
    simp only [hlen] at hm
    simp only [mailboxHighest, findMailbox, hlen]
    exact hm

/-- C4: every message row created by InsertMessage starts with uploaded=false
and a pending_uploads row for its (content_hash, account_id) committed in the
same transaction; and the invariant "every uploaded=false messages row has a
pending_uploads row" is preserved by InsertMessage, by CopyMessages, and by
the uploader's finalize step (which ends the pending row's obligation only
after setting uploaded=true). The hypotheses equating the upload's key with
the options' key state that the caller enqueues the upload of the inserted
message, as APPEND/LMTP do. -/
theorem insertMessage_pending_upload :
    (∀ s o up mbx, findMailbox s o.mailboxId = some mbx →
      messageIdConflict s o.mailboxId (effectiveMessageId o) = false →
      up.contentHash = o.contentHash → up.accountId = o.userId →
      ∃ row s2, insertMessage s o up = .ok (row.id, (bumpMailbox o mbx).highestUid, s2) ∧
        s2.messages = s.messages ++ [row] ∧
        row.uploaded = false ∧
        row.contentHash = o.contentHash ∧ row.accountId = o.userId ∧
        (row.contentHash, row.accountId) ∈ s2.pendingUploads) ∧
    (∀ s o up r, insertMessage s o up = .ok r →
      up.contentHash = o.contentHash → up.accountId = o.userId →
      pendingInvariant s → pendingInvariant r.2.2) ∧
    (∀ s uids src dst r, copyMessages s uids src dst = .ok r →
      pendingInvariant s → pendingInvariant r.2) ∧
    (∀ s hash acct, pendingInvariant s → pendingInvariant (completeUpload s hash acct)) := by
  have hpendmem : ∀ (pend : List (String × Nat)) (ch : String) (acct : Nat),
      (ch, acct) ∈ (if pend.contains (ch, acct) then pend else pend ++ [(ch, acct)]) := by
    intro pend ch acct
    by_cases hctn : pend.contains (ch, acct) = true
    · rw [if_pos hctn]
      simpa [List.contains, List.elem_eq_mem] using hctn
    · rw [if_neg hctn]
      exact List.mem_append_right _ (List.mem_singleton.mpr rfl)
  have hpendmono : ∀ (pend : List (String × Nat)) (k p : String × Nat),
      p ∈ pend → p ∈ (if pend.contains k then pend else pend ++ [k]) := by
    intro pend k p hp
    split
    · exact hp
    · exact List.mem_append_left _ hp
  refine ⟨?_, ?_, ?_, ?_⟩
  · -- the inserted row is uploaded=false with a pending row present
    intro s o up mbx hfm hnc hch hacct
    refine ⟨{ id := s.nextRowId
              accountId := o.userId
              mailboxId := o.mailboxId
              mailboxPath := o.mailboxName
              uid := match o.preservedUid with
                | some p => p
                | none => mbx.highestUid + 1
              messageId := effectiveMessageId o
              contentHash := o.contentHash
              flags := o.flags
              size := o.size
              uploaded := false
              expunged := false
              createdModseq := s.modseq + 1 }, _,
      insertMessage_noConflict_eq s o up mbx hfm hnc, rfl, rfl, rfl, rfl, ?_⟩
    show (o.contentHash, o.userId) ∈
      (if s.pendingUploads.contains (up.contentHash, up.accountId) then s.pendingUploads
        else s.pendingUploads ++ [(up.contentHash, up.accountId)])
    rw [hch, hacct]
    exact hpendmem s.pendingUploads o.contentHash o.userId
  · -- InsertMessage preserves the invariant
    intro s o up r hr hch hacct hinv
    cases hfm : findMailbox s o.mailboxId with
    | none =>
      rw [insertMessage_noMailbox_eq s o up hfm] at hr
      exact absurd hr (by simp)
    | some mbx =>
      by_cases hc : messageIdConflict s o.mailboxId (effectiveMessageId o) = true
      · cases hfe : findExistingMessage s o.userId o.mailboxId (effectiveMessageId o) with
        | none =>
          rw [insertMessage_conflictNoRow_eq s o up mbx hfm hc hfe] at hr
          exact absurd hr (by simp)
        | some ex =>
          rw [insertMessage_conflict_eq s o up mbx ex hfm hc hfe] at hr
          injection hr with h
          subst h
          exact hinv
      · have hnc : messageIdConflict s o.mailboxId (effectiveMessageId o) = false := by
          simpa using hc
        rw [insertMessage_noConflict_eq s o up mbx hfm hnc] at hr
        injection hr with h
        subst h
        intro m hm hup
        rcases List.mem_append.mp hm with hm' | hm'
        · exact hpendmono _ _ _ (hinv m hm' hup)
        · have hrow := List.mem_singleton.mp hm'
          subst hrow
          show (o.contentHash, o.userId) ∈ _
          rw [← hch, ← hacct]
          have := hpendmem s.pendingUploads up.contentHash up.accountId
          simpa [hch, hacct] using this
  · -- CopyMessages preserves the invariant
    intro s uids src dst r hr hinv
    by_cases hne : src = dst
    · unfold copyMessages at hr
      rw [if_pos hne] at hr
      exact absurd hr (by simp)
    · by_cases hM : matchedRows s src uids = []
      · rw [copyMessages_empty_eq s uids src dst hne hM] at hr
        injection hr with h
        subst h
        exact hinv
      · cases hdest : findMailbox s dst with
        | none =>
          rw [copyMessages_noDest_eq s uids src dst hne hM hdest] at hr
          exact absurd hr (by simp)
        | some dest =>
          rw [copyMessages_nonempty_eq s uids src dst dest hne hdest hM] at hr
          injection hr with h
          subst h
          intro m hm hup
          rcases List.mem_append.mp hm with hm' | hm'
          · exact hinv m hm' hup
          · rcases copyRows_source _ _ _ _ _ _ m hm' with ⟨msrc, hmem, hupl, hchh, hacc, _⟩
            have hmem' : msrc ∈ matchedRows s src uids :=
              ((sortByUid_perm _).mem_iff).mp hmem
            have hmem'' : msrc ∈ s.messages := List.mem_of_mem_filter hmem'
            have hsrcup : msrc.uploaded = false := by rw [← hupl, hup]
            have := hinv msrc hmem'' hsrcup
            rw [hchh, hacc]
            exact this
  · -- the uploader finalize step preserves the invariant
    intro s hash acct hinv
    intro m hm hup
    rcases List.mem_map.mp hm with ⟨msrc, hmem, hmap⟩
    by_cases hcond : (msrc.contentHash == hash && msrc.accountId == acct) = true
    · rw [if_pos hcond] at hmap
      subst hmap
      simp at hup
    · rw [if_neg hcond] at hmap
      subst hmap
      have hmemp := hinv msrc hmem hup
      apply List.mem_filter.mpr
      refine ⟨hmemp, ?_⟩
      simp only [Bool.and_eq_true, beq_iff_eq] at hcond
      simp only [Bool.not_eq_true', beq_eq_false_iff_ne, ne_eq, Prod.mk.injEq]
      exact fun h => hcond ⟨h.1, h.2⟩

theorem processMailboxSequences_self (seqs : List (Nat × Nat × Nat))
    (msgs : List MessageRow) (mid : Nat) :
    (processMailboxSequences seqs msgs mid).filter (fun r => r.1 == mid) =
      (rebuildSequences msgs mid).map (fun p => (mid, p.1, p.2)) := by
  unfold processMailboxSequences
  rw [List.filter_append]
  have h1 : (seqs.filter (fun r => !(r.1 == mid))).filter (fun r => r.1 == mid) = [] := by
    rw [List.filter_eq_nil_iff]
    intro a ha
    have := List.of_mem_filter ha
    simp only [Bool.not_eq_true'] at this
    simp [this]
  have h2 : ((rebuildSequences msgs mid).map (fun p => (mid, p.1, p.2))).filter
      (fun r => r.1 == mid) = (rebuildSequences msgs mid).map (fun p => (mid, p.1, p.2)) := by
    rw [List.filter_eq_self]
    intro a ha
    rcases List.mem_map.mp ha with ⟨p, hp, rfl⟩
    simp
  rw [h1, h2, List.nil_append]

theorem processMailboxSequences_other (seqs : List (Nat × Nat × Nat))
    (msgs : List MessageRow) (mid tgt : Nat) (hne : tgt ≠ mid) :
    (processMailboxSequences seqs msgs mid).filter (fun r => r.1 == tgt) =
      seqs.filter (fun r => r.1 == tgt) := by
  unfold processMailboxSequences
  rw [List.filter_append]
  have h2 : ((rebuildSequences msgs mid).map (fun p => (mid, p.1, p.2))).filter
      (fun r => r.1 == tgt) = [] := by
    rw [List.filter_eq_nil_iff]
    intro a ha
    rcases List.mem_map.mp ha with ⟨p, hp, rfl⟩
    simpa using (Ne.symm hne)
  have h1 : (seqs.filter (fun r => !(r.1 == mid))).filter (fun r => r.1 == tgt) =
      seqs.filter (fun r => r.1 == tgt) := by
    rw [List.filter_filter]
    apply List.filter_congr
    intro a ha
    by_cases hat : a.1 = tgt
    · have hmf : (a.1 == mid) = false := by simp [hat, hne]
      simp [hat, hmf, hne]
    · simp [hat]
  rw [h1, h2, List.append_nil]

theorem maintainMessageSequences_notmem (seqs : List (Nat × Nat × Nat))
    (msgs : List MessageRow) (affected : List Nat) (tgt : Nat) (h : tgt ∉ affected) :
    (maintainMessageSequences seqs msgs affected).filter (fun r => r.1 == tgt) =
      seqs.filter (fun r => r.1 == tgt) := by
  induction affected generalizing seqs with
  | nil => rfl
  | cons a rest ih =>
    have ha : tgt ≠ a := fun he => h (he ▸ List.mem_cons_self a rest)
    have hr : tgt ∉ rest := fun hm => h (List.mem_cons_of_mem a hm)
    show (maintainMessageSequences (processMailboxSequences seqs msgs a) msgs rest).filter
        (fun r => r.1 == tgt) = _
    rw [ih _ hr, processMailboxSequences_other seqs msgs a tgt ha]

theorem maintainMessageSequences_mem (seqs : List (Nat × Nat × Nat))
    (msgs : List MessageRow) (affected : List Nat) (mid : Nat) (hmem : mid ∈ affected) :
    (maintainMessageSequences seqs msgs affected).filter (fun r => r.1 == mid) =
      (rebuildSequences msgs mid).map (fun p => (mid, p.1, p.2)) := by
  induction affected generalizing seqs with
  | nil => cases hmem
  | cons a rest ih =>
    show (maintainMessageSequences (processMailboxSequences seqs msgs a) msgs rest).filter
        (fun r => r.1 == mid) = _
    by_cases hmr : mid ∈ rest
    · exact ih _ hmr
    · have hma : mid = a := by
        rcases List.mem_cons.mp hmem with h | h
        · exact h
        · exact absurd h hmr
      subst hma
      rw [maintainMessageSequences_notmem _ msgs rest mid hmr]
      exact processMailboxSequences_self seqs msgs mid

/-- C5: after the sequence-maintenance trigger runs over the affected
mailboxes, the message_sequences rows of each affected mailbox are exactly the
live messages of that mailbox, with seqnum values 1..N (contiguous, gap-free,
unique) assigned in ascending UID order. The no-duplicate hypothesis is the
messages-table uid uniqueness within a mailbox. -/
theorem trigger_rebuild_sequences
    (seqs : List (Nat × Nat × Nat)) (msgs : List MessageRow) (affected : List Nat) (mid : Nat)
    (hmem : mid ∈ affected)
    (hnodup : ((msgs.filter (isLiveIn mid)).map (·.uid)).Nodup) :
    (maintainMessageSequences seqs msgs affected).filter (fun r => r.1 == mid) =
      (rebuildSequences msgs mid).map (fun p => (mid, p.1, p.2)) ∧
    ((rebuildSequences msgs mid).map Prod.fst).Perm
      ((msgs.filter (isLiveIn mid)).map (·.uid)) ∧
    (rebuildSequences msgs mid).map Prod.snd =
      List.range' 1 (msgs.filter (isLiveIn mid)).length ∧
    (rebuildSequences msgs mid).Pairwise (fun a b => a.1 < b.1 ∧ a.2 < b.2) := by
  have hperm : (sortByUid (msgs.filter (isLiveIn mid))).Perm (msgs.filter (isLiveIn mid)) :=
    sortByUid_perm _
  have hlen : (sortByUid (msgs.filter (isLiveIn mid))).length =
      (msgs.filter (isLiveIn mid)).length := hperm.length_eq
  refine ⟨maintainMessageSequences_mem seqs msgs affected mid hmem, ?_, ?_, ?_⟩
  · rw [rebuildSequences, assignUids_fst]
    exact hperm.map _
  · rw [rebuildSequences, assignUids_snd, hlen]
  · have hfstle : ((rebuildSequences msgs mid).map Prod.fst).Pairwise (· ≤ ·) := by
      rw [rebuildSequences, assignUids_fst]
      exact (List.pairwise_map).mpr (sortByUid_pairwise _)
    have hfstnd : ((rebuildSequences msgs mid).map Prod.fst).Nodup := by
      rw [rebuildSequences, assignUids_fst]
      exact ((hperm.map (·.uid)).nodup_iff).mpr hnodup
    have hfst : ((rebuildSequences msgs mid).map Prod.fst).Pairwise (· < ·) :=
      pairwise_lt_of_le_nodup _ hfstle hfstnd
    have hsnd : ((rebuildSequences msgs mid).map Prod.snd).Pairwise (· < ·) := by
      rw [rebuildSequences, assignUids_snd]
      exact List.pairwise_lt_range' _ _
    exact ((List.pairwise_map).mp hfst).and ((List.pairwise_map).mp hsnd)

/-- A PUTSCRIPT run in which everything succeeds except the phase-3
session-pinning write-lock acquisition, which times out. -/
def putScriptPhase3Timeout : PutScriptEnv :=
  { ctxCancelled := false
    nameEmpty := false
    phase1ReadLock := true
    sizeExceeded := false
    validationFails := false
    existing := GetScriptOutcome.notFound
    writeFails := false
    phase3WriteLock := false }

/-- C6 counterexample: a PUTSCRIPT whose phase-3 write-lock acquisition times
out still completes successfully with OK Script stored (proceeding without the
lock and leaving the session unpinned) instead of failing with
NO Server busy, try again later — so not every lock-acquisition path of every
command fails the command on timeout. -/
theorem putScript_phase3_timeout_counterexample :
    putScriptPhase3Timeout.phase3WriteLock = false ∧
    handlePutScript putScriptPhase3Timeout =
      { resp := "OK Script stored\r\n", ok := true, pinned := false } ∧
    (handlePutScript putScriptPhase3Timeout).resp ≠ serverBusyResp ∧
    (handlePutScript putScriptPhase3Timeout).ok = true := by
  decide

/-- C6 amended: every session-mutex acquisition is bounded, and the phase-1
read lock and the authentication-state write lock fail the command with
NO Server busy, try again later on timeout; but the phase-3 session-pinning
write lock only logs on timeout, the command still succeeding without the
lock. -/
theorem sessionLock_timeout_behavior :
    (∀ e : PutScriptEnv, e.ctxCancelled = false → e.nameEmpty = false →
      e.phase1ReadLock = false →
      handlePutScript e = { resp := serverBusyResp, ok := false, pinned := false }) ∧
    handleAuthenticate AuthPhase.authOk false false = (serverBusyResp, false) ∧
    (∀ e : PutScriptEnv, e.ctxCancelled = false → e.nameEmpty = false →
      e.phase1ReadLock = true → e.sizeExceeded = false → e.validationFails = false →
      e.existing ≠ GetScriptOutcome.dbError → e.writeFails = false →
      e.phase3WriteLock = false →
      (handlePutScript e).ok = true ∧ (handlePutScript e).pinned = false) := by
  refine ⟨?_, rfl, ?_⟩
  · intro e h1 h2 h3
    simp [handlePutScript, h1, h2, h3]
  · intro e h1 h2 h3 h4 h5 h6 h7 h8
    cases hex : e.existing with
    | dbError => exact absurd hex h6
    | found => simp [handlePutScript, h1, h2, h3, h4, h5, h7, h8, hex]
    | notFound => simp [handlePutScript, h1, h2, h3, h4, h5, h7, h8, hex]

/-- Witness for the amended lock-discipline theorem at concrete environments. -/
theorem sessionLock_timeout_behavior_witness :
    handlePutScript
      { ctxCancelled := false, nameEmpty := false, phase1ReadLock := false,
        sizeExceeded := false, validationFails := false,
        existing := GetScriptOutcome.found, writeFails := false, phase3WriteLock := false } =
      { resp := serverBusyResp, ok := false, pinned := false } ∧
    (handlePutScript putScriptPhase3Timeout).ok = true ∧
    (handlePutScript putScriptPhase3Timeout).pinned = false :=
  ⟨sessionLock_timeout_behavior.1 _ rfl rfl rfl,
   (sessionLock_timeout_behavior.2.2 putScriptPhase3Timeout rfl rfl rfl rfl rfl
      (by decide) rfl rfl).1,
   (sessionLock_timeout_behavior.2.2 putScriptPhase3Timeout rfl rfl rfl rfl rfl
      (by decide) rfl rfl).2⟩

/-- C7: the pre-lookup client's outcome classification is as the spec states:
4xx (including 404) yields userNotFound with nil routing info and nil error
(DB-auth fallback); 5xx, a network failure or an open circuit breaker yields
failed wrapped in the transient error kind (no fallback); a success response
with malformed JSON or an empty address or password_hash yields the
invalid-response error kind. -/
theorem prelookup_error_classification :
    (∀ status body, 400 ≤ status → status < 500 →
      classifyPrelookup (.httpResponse status body) = (none, .userNotFound, none)) ∧
    (∀ status body, 500 ≤ status →
      classifyPrelookup (.httpResponse status body) = (none, .failed, some .transient)) ∧
    classifyPrelookup .networkError = (none, .failed, some .transient) ∧
    classifyPrelookup .circuitOpen = (none, .failed, some .transient) ∧
    (∀ status, status < 400 →
      classifyPrelookup (.httpResponse status none) = (none, .failed, some .invalidResponse)) ∧
    (∀ status r, status < 400 → (r.address = "" ∨ r.passwordHash = "") →
      classifyPrelookup (.httpResponse status (some r)) =
        (none, .failed, some .invalidResponse)) := by
  refine ⟨?_, ?_, rfl, rfl, ?_, ?_⟩
  · intro status body h4 h5
    have hn5 : ¬ 500 ≤ status := by omega
    simp [classifyPrelookup, hn5, h4]
  · intro status body h5
    simp [classifyPrelookup, h5]
  · intro status h4
    have hn5 : ¬ 500 ≤ status := by omega
    have hn4 : ¬ 400 ≤ status := by omega
    simp [classifyPrelookup, hn5, hn4]
  · intro status r h4 hempty
    have hn5 : ¬ 500 ≤ status := by omega
    have hn4 : ¬ 400 ≤ status := by omega
    rcases hempty with h | h <;> simp [classifyPrelookup, hn5, hn4, h]

/-- Witness for the classification theorem at the test's concrete cases. -/
theorem prelookup_error_classification_witness :
    classifyPrelookup (.httpResponse 404 none) = (none, .userNotFound, none) ∧
    classifyPrelookup (.httpResponse 500 none) = (none, .failed, some .transient) ∧
    classifyPrelookup (.httpResponse 200 none) = (none, .failed, some .invalidResponse) ∧
    classifyPrelookup (.httpResponse 200
        (some { address := "", passwordHash := "x", server := "backend:143" })) =
      (none, .failed, some .invalidResponse) :=
  ⟨prelookup_error_classification.1 404 none (by decide) (by decide),
   prelookup_error_classification.2.1 500 none (by decide),
   prelookup_error_classification.2.2.2.2.1 200 (by decide),
   prelookup_error_classification.2.2.2.2.2 200 _ (by decide) (Or.inl rfl)⟩

theorem find?_append_left_none {α : Type} (p : α → Bool) (l1 l2 : List α)
    (h : ∀ x ∈ l1, p x = false) : (l1 ++ l2).find? p = l2.find? p := by
  induction l1 with
  | nil => rfl
  | cons x xs ih =>
    rw [List.cons_append,
      List.find?_cons_of_neg _ (by simp [h x (List.mem_cons_self x xs)])]
    exact ih (fun y hy => h y (List.mem_cons_of_mem x hy))

/-- The fold of evictOldest keeps a minimal-expiry candidate. -/
theorem findOldest_foldl_min (l : List (String × CacheEntry)) (b : String × CacheEntry) :
    ∃ r, l.foldl (fun acc e =>
        match acc with
        | none => some e
        | some b0 => if e.2.expiresAt < b0.2.expiresAt then some e else some b0) (some b)
      = some r ∧ (r = b ∨ r ∈ l) ∧ r.2.expiresAt ≤ b.2.expiresAt ∧
      ∀ e ∈ l, r.2.expiresAt ≤ e.2.expiresAt := by
  induction l generalizing b with
  | nil => exact ⟨b, rfl, Or.inl rfl, le_refl _, fun e he => absurd he (List.not_mem_nil e)⟩
  | cons x xs ih =>
    by_cases hx : x.2.expiresAt < b.2.expiresAt
    · rcases ih x with ⟨r, hr, hmem, hle, hall⟩
      refine ⟨r, ?_, ?_, le_trans hle (le_of_lt hx), ?_⟩
      · show List.foldl _ (if x.2.expiresAt < b.2.expiresAt then some x else some b) xs = some r
        rw [if_pos hx]
        exact hr
      · rcases hmem with heq | h
        · exact Or.inr (by rw [heq]; exact List.mem_cons_self x xs)
        · exact Or.inr (List.mem_cons_of_mem x h)
      · intro e he
        rcases List.mem_cons.mp he with rfl | h
        · exact hle
        · exact hall e h
    · rcases ih b with ⟨r, hr, hmem, hle, hall⟩
      refine ⟨r, ?_, ?_, hle, ?_⟩
      · show List.foldl _ (if x.2.expiresAt < b.2.expiresAt then some x else some b) xs = some r
        rw [if_neg hx]
        exact hr
      · rcases hmem with heq | h
        · exact Or.inl heq
        · exact Or.inr (List.mem_cons_of_mem x h)
      · intro e he
        rcases List.mem_cons.mp he with rfl | h
        · exact le_trans hle (le_of_not_lt hx)
        · exact hall e h

theorem findOldest_spec (l : List (String × CacheEntry)) (hl : l ≠ []) :
    ∃ ke, findOldest l = some ke ∧ ke ∈ l ∧ ∀ e ∈ l, ke.2.expiresAt ≤ e.2.expiresAt := by
  cases l with
  | nil => exact absurd rfl hl
  | cons x xs =>
    rcases findOldest_foldl_min xs x with ⟨r, hr, hmem, hle, hall⟩
    refine ⟨r, ?_, ?_, ?_⟩
    · show List.foldl _ (some x) xs = some r
      exact hr
    · rcases hmem with heq | h
      · exact (by rw [heq]; exact List.mem_cons_self x xs)
      · exact List.mem_cons_of_mem x h
    · intro e he
      rcases List.mem_cons.mp he with rfl | h
      · exact hle
      · exact hall e h

/-- C8 amended: every stored negative result (userNotFound or failed) gets the
negative TTL and every other result the positive TTL as its expiry; Get never
returns an entry whose expiry has passed; and when the cache holds max-size
entries, Set first evicts the entry with the earliest expiration time — not
(in general) the least-recently-used entry. -/
theorem prelookup_cache_spec :
    (∀ (c : PrelookupCache) (now : Nat) (key : String) (info : Option PrelookupResponse)
        (res : AuthResult),
      cacheLookup (cacheSet c now key info res) key =
        some { info := info, authResult := res,
               expiresAt := now +
                 (if isNegativeResult res then c.negativeTTL else c.positiveTTL),
               isNegative := isNegativeResult res }) ∧
    (∀ c now key v, cacheGet c now key = some v →
      ∃ e, cacheLookup c key = some e ∧ now ≤ e.expiresAt ∧ v = (e.info, e.authResult)) ∧
    (∀ c : PrelookupCache, c.entries ≠ [] →
      ∃ ke ∈ c.entries,
        (evictOldest c).entries = c.entries.filter (fun e => !(e.1 == ke.1)) ∧
        ∀ e ∈ c.entries, ke.2.expiresAt ≤ e.2.expiresAt) := by
  refine ⟨?_, ?_, ?_⟩
  · intro c now key info res
    unfold cacheSet cacheLookup
    rw [find?_append_left_none]
    · simp [List.find?]
    · intro x hx
      have := List.of_mem_filter hx
      simpa using this
  · intro c now key v h
    unfold cacheGet at h
    cases hl : cacheLookup c key with
    | none => rw [hl] at h; exact absurd h (by simp)
    | some e =>
      rw [hl] at h
      dsimp only at h
      by_cases hexp : now > e.expiresAt
      · rw [if_pos hexp] at h
        exact absurd h (by simp)
      · rw [if_neg hexp] at h
        injection h with h
        exact ⟨e, rfl, le_of_not_lt hexp, h.symm⟩
  · intro c hc
    rcases findOldest_spec c.entries hc with ⟨ke, hfo, hmem, hmin⟩
    refine ⟨ke, hmem, ?_, hmin⟩
    unfold evictOldest
    rw [hfo]

/-- A one-entry cache used to witness the Get clause. -/
def getDemoCache : PrelookupCache :=
  { entries := [("k", { info := none, authResult := AuthResult.success,
                        expiresAt := 10, isNegative := false })],
    positiveTTL := 10, negativeTTL := 2, maxSize := 4 }

/-- A full two-entry cache used to witness the eviction clause. -/
def evictDemoCache : PrelookupCache :=
  { entries := [("a", { info := none, authResult := AuthResult.success,
                        expiresAt := 9, isNegative := false }),
                ("b", { info := none, authResult := AuthResult.failed,
                        expiresAt := 4, isNegative := true })],
    positiveTTL := 10, negativeTTL := 2, maxSize := 2 }

/-- Witness for the cache theorem: a concrete Get hit and a concrete
eviction. -/
theorem prelookup_cache_spec_witness :
    (∃ e, cacheLookup getDemoCache "k" = some e ∧ (5 : Nat) ≤ e.expiresAt ∧
      ((none : Option PrelookupResponse), AuthResult.success) = (e.info, e.authResult)) ∧
    (∃ ke ∈ evictDemoCache.entries,
      (evictOldest evictDemoCache).entries =
        evictDemoCache.entries.filter (fun e => !(e.1 == ke.1)) ∧
      ∀ e ∈ evictDemoCache.entries, ke.2.expiresAt ≤ e.2.expiresAt) := by
  constructor
  · exact prelookup_cache_spec.2.1 getDemoCache 5 "k" (none, AuthResult.success) (by decide)
  · exact prelookup_cache_spec.2.2 evictDemoCache (by decide)

/-- The cache built by inserting a positive entry for key p at time 0
(TTL 100), a negative entry for key n at time 1 (TTL 5), then a third entry
for key x at time 3 when the cache is at its max size of 2. -/
def cacheScenario : PrelookupCache :=
  cacheSet
    (cacheSet
      (cacheSet { entries := [], positiveTTL := 100, negativeTTL := 5, maxSize := 2 }
        0 "p" none AuthResult.success)
      1 "n" none AuthResult.userNotFound)
    3 "x" none AuthResult.failed

/-- The two-entry cache state just before the third insert. -/
def cacheScenarioBefore : PrelookupCache :=
  cacheSet
    (cacheSet { entries := [], positiveTTL := 100, negativeTTL := 5, maxSize := 2 }
      0 "p" none AuthResult.success)
    1 "n" none AuthResult.userNotFound

/-- C8 counterexample: with the cache full (max size 2) holding p (inserted at
time 0, expiry 100) and n (inserted at time 1, expiry 6, and read at time 2,
so p is the least-recently-used entry), inserting x at time 3 evicts n — the
entry with the earliest expiry — while the least-recently-used entry p
survives; so eviction is not least-recently-used. -/
theorem prelookup_cache_lru_counterexample :
    cacheScenarioBefore.entries.length = cacheScenarioBefore.maxSize ∧
    (cacheGet cacheScenarioBefore 2 "n").isSome = true ∧
    (cacheGet cacheScenarioBefore 2 "p").isSome = true ∧
    cacheLookup cacheScenario "n" = none ∧
    (cacheLookup cacheScenario "p").isSome = true ∧
    (cacheLookup cacheScenario "x").isSome = true := by
  decide

theorem tagToken_ne_all (tag : String) : "(TAG \"" ++ tag ++ "\")" ≠ "ALL" := by
  intro h
  have h2 := congrArg String.length h
  rw [String.length_append, String.length_append] at h2
  have e1 : ("(TAG \"" : String).length = 6 := rfl
  have e2 : ("\")" : String).length = 2 := rfl
  have e3 : ("ALL" : String).length = 3 := rfl
  omega

theorem all_not_mem_esearch_empty (tag : String) (uid : Bool) :
    "ALL" ∉ esearchTokens tag uid [] := by
  intro hmem
  unfold esearchTokens at hmem
  cases uid with
  | true =>
    simp only [List.isEmpty_nil, if_true, List.append_nil, List.mem_append,
      List.mem_cons, List.mem_singleton, List.not_mem_nil, or_false] at hmem
    rcases hmem with (h | h | h) | h
    · exact absurd h (by decide)
    · exact absurd h (by decide)
    · exact absurd h.symm (tagToken_ne_all tag)
    · exact absurd h (by decide)
  | false =>
    simp only [List.isEmpty_nil, if_true, Bool.false_eq_true, if_false, List.append_nil,
      List.mem_append, List.mem_cons, List.mem_singleton, List.not_mem_nil, or_false] at hmem
    rcases hmem with h | h | h
    · exact absurd h (by decide)
    · exact absurd h (by decide)
    · exact absurd h.symm (tagToken_ne_all tag)

/-- C9: an ESEARCH response for an empty result set consists of the untagged
ESEARCH line with the tag correlator and (for UID SEARCH) the UID token only:
no ALL keyword and no trailing set; the ALL keyword can only ever appear with
a nonempty result set. -/
theorem esearch_empty_omits_all :
    (∀ tag : String, esearchTokens tag true [] =
      ["*", "ESEARCH", "(TAG \"" ++ tag ++ "\")", "UID"]) ∧
    (∀ (tag : String) (uid : Bool), "ALL" ∉ esearchTokens tag uid []) ∧
    (∀ (tag : String) (uid : Bool) (results : List Nat),
      "ALL" ∈ esearchTokens tag uid results → results ≠ []) := by
  refine ⟨?_, all_not_mem_esearch_empty, ?_⟩
  · intro tag
    rfl
  · intro tag uid results hmem
    intro hnil
    subst hnil
    exact all_not_mem_esearch_empty tag uid hmem

/-- Witness for the ESEARCH theorem: a nonempty result set does carry ALL. -/
theorem esearch_empty_omits_all_witness :
    ("ALL" ∈ esearchTokens "A1" true [5]) ∧ (([5] : List Nat) ≠ []) := by
  constructor
  · show "ALL" ∈ esearchTokens "A1" true [5]
    rw [esearchTokens]
    simp
  · exact esearch_empty_omits_all.2.2 "A1" true [5] (by rw [esearchTokens]; simp)

/-- A two-mailbox, two-message demo state used to witness the metadata-store
theorems on concrete inputs. -/
def mbxInbox : Mailbox := { id := 1, name := "INBOX", highestUid := 2, uidValidity := 7 }

def mbxArchive : Mailbox := { id := 2, name := "Archive", highestUid := 5, uidValidity := 9 }

def msgA : MessageRow :=
  { id := 10, accountId := 1, mailboxId := 1, mailboxPath := "INBOX", uid := 1,
    messageId := "<a@x>", contentHash := "h1", flags := 0, size := 100,
    uploaded := false, expunged := false, createdModseq := 1 }

def msgB : MessageRow :=
  { id := 11, accountId := 1, mailboxId := 1, mailboxPath := "INBOX", uid := 2,
    messageId := "<b@x>", contentHash := "h2", flags := 1, size := 200,
    uploaded := true, expunged := false, createdModseq := 2 }

def demoState : DBState :=
  { mailboxes := [mbxInbox, mbxArchive], messages := [msgA, msgB],
    pendingUploads := [("h1", 1)], contents := ["h1", "h2"],
    messageSequences := [(1, 1, 1), (1, 2, 2)], nextRowId := 12, modseq := 2 }

/-- An APPEND of a fresh message into the demo INBOX. -/
def demoInsertFresh : InsertOptions :=
  { userId := 1, mailboxId := 1, mailboxName := "INBOX", contentHash := "h3",
    messageId := "<c@x>", generatedMessageId := "<g@x>", flags := 0, size := 50,
    preservedUid := none, preservedUidValidity := none }

/-- The matching pending upload for demoInsertFresh. -/
def demoUploadFresh : PendingUpload :=
  { instanceId := "i1", contentHash := "h3", size := 50, accountId := 1 }

/-- A duplicate APPEND carrying msgA's Message-ID into the demo INBOX. -/
def demoInsertDup : InsertOptions :=
  { userId := 1, mailboxId := 1, mailboxName := "INBOX", contentHash := "h1",
    messageId := "<a@x>", generatedMessageId := "<g@x>", flags := 0, size := 100,
    preservedUid := none, preservedUidValidity := none }

def demoUploadDup : PendingUpload :=
  { instanceId := "i1", contentHash := "h1", size := 100, accountId := 1 }

/-- The result of the fresh insert on the demo state. -/
def demoInsertResult : Nat × Nat × DBState :=
  match insertMessage demoState demoInsertFresh demoUploadFresh with
  | .ok r => r
  | .error _ => (0, 0, demoState)

/-- The result of copying both demo messages from INBOX to Archive. -/
def demoCopyResult : List (Nat × Nat) × DBState :=
  match copyMessages demoState [1, 2] 1 2 with
  | .ok r => r
  | .error _ => ([], demoState)

/-- Witness for C1 on the demo state: copying UIDs 1 and 2 into Archive. -/
theorem copyMessages_copyuid_witness :
    ∃ uidMap s2,
      copyMessages demoState [1, 2] 1 2 = .ok (uidMap, s2) ∧
      mailboxHighest s2 2 = some (mbxArchive.highestUid +
        (matchedRows demoState 1 [1, 2]).length) ∧
      uidMap.length = (matchedRows demoState 1 [1, 2]).length ∧
      (uidMap.map Prod.fst).Perm ((matchedRows demoState 1 [1, 2]).map (·.uid)) ∧
      uidMap.map Prod.snd =
        List.range' (mbxArchive.highestUid + 1) (matchedRows demoState 1 [1, 2]).length ∧
      mbxArchive.highestUid + (matchedRows demoState 1 [1, 2]).length ∈
        uidMap.map Prod.snd ∧
      uidMap.Pairwise (fun a b => a.1 < b.1 ∧ a.2 < b.2) :=
  copyMessages_copyuid demoState [1, 2] 1 2 mbxArchive (by decide) (by decide)
    (by decide) (by decide)

/-- Witness for C2 on the demo state: the duplicate APPEND returns msgA's id
and uid and leaves the state unchanged. -/
theorem insertMessage_duplicate_dedupe_witness :
    insertMessage demoState demoInsertDup demoUploadDup = .ok (msgA.id, msgA.uid, demoState) :=
  insertMessage_duplicate_dedupe demoState demoInsertDup demoUploadDup mbxInbox msgA
    (by decide) (by decide) (by decide) (by decide) (by decide) (by decide) (by decide)

/-- Witness for C3 on the demo state: neither the fresh insert nor the copy
lowers a highest_uid. -/
theorem highestUid_never_decreases_witness :
    (∃ hu2, mailboxHighest demoInsertResult.2.2 1 = some hu2 ∧ 2 ≤ hu2) ∧
    (∃ hu2, mailboxHighest demoCopyResult.2 2 = some hu2 ∧ 5 ≤ hu2) :=
  ⟨highestUid_never_decreases.1 demoState demoInsertFresh demoUploadFresh
      demoInsertResult rfl 1 2 (by decide),
   highestUid_never_decreases.2.1 demoState [1, 2] 1 2 demoCopyResult rfl
      2 5 (by decide)⟩

/-- Witness for C4 on the demo state: the fresh insert creates an
uploaded=false row with its pending-upload row present. -/
theorem insertMessage_pending_upload_witness :
    ∃ row s2, insertMessage demoState demoInsertFresh demoUploadFresh =
        .ok (row.id, (bumpMailbox demoInsertFresh mbxInbox).highestUid, s2) ∧
      s2.messages = demoState.messages ++ [row] ∧
      row.uploaded = false ∧
      row.contentHash = demoInsertFresh.contentHash ∧
      row.accountId = demoInsertFresh.userId ∧
      (row.contentHash, row.accountId) ∈ s2.pendingUploads :=
  insertMessage_pending_upload.1 demoState demoInsertFresh demoUploadFresh mbxInbox
    (by decide) (by decide) rfl rfl

/-- Witness for C5 on the demo state: rebuilding INBOX's sequence rows. -/
theorem trigger_rebuild_sequences_witness :
    (maintainMessageSequences [(1, 9, 9)] demoState.messages [1]).filter
        (fun r => r.1 == 1) =
      (rebuildSequences demoState.messages 1).map (fun p => (1, p.1, p.2)) ∧
    ((rebuildSequences demoState.messages 1).map Prod.fst).Perm
      ((demoState.messages.filter (isLiveIn 1)).map (·.uid)) ∧
    (rebuildSequences demoState.messages 1).map Prod.snd =
      List.range' 1 (demoState.messages.filter (isLiveIn 1)).length ∧
    (rebuildSequences demoState.messages 1).Pairwise (fun a b => a.1 < b.1 ∧ a.2 < b.2) :=
  trigger_rebuild_sequences [(1, 9, 9)] demoState.messages [1] 1 (by decide) (by decide)

/-- Witness for C10 on the demo state: copying an absent UID is a no-op. -/
theorem copyMessages_noMatch_frame_witness :
    copyMessages demoState [99] 1 2 = .ok ([], demoState) :=
  copyMessages_noMatch_frame demoState [99] 1 2 (by decide) (by decide)

end Sora
